import Mathlib

/-!
Verification of the word-search engine: a document-indexing pipeline
(`scripts/preprocess.py`) that OCRs a folder of documents into a flat JSON
index of word records, and an exact-match query engine (`scripts/search.py`)
that filters that index.

The embedding is shallow: Python dict/list values become Lean structures and
lists, floats become rationals, fallible external calls (document conversion,
OCR) become explicit outcome parameters, and the two scripts' functions become
Lean functions over those values.
-/

namespace WordSearch

/-- Normalized bounding box as stored in each record:
`[x_min, y_min, x_max, y_max]`, coordinates relative to page size. -/
structure BBox where
  x_min : ℚ
  y_min : ℚ
  x_max : ℚ
  y_max : ℚ
  deriving DecidableEq, Repr, Inhabited

/-- One entry of the word index: the dict built at `preprocess.py` lines
151-161 with keys `document`, `page`, `word`, `bounding_box`. -/
structure WordRecord where
  document : String
  page : ℤ
  word : String
  bounding_box : BBox
  deriving DecidableEq, Repr, Inhabited

/-- The data-model invariant on a bounding box: coordinates in `[0,1]`,
min ≤ max on each axis. -/
def BBox.valid (b : BBox) : Prop :=
  0 ≤ b.x_min ∧ b.x_min ≤ b.x_max ∧ b.x_max ≤ 1 ∧
  0 ≤ b.y_min ∧ b.y_min ≤ b.y_max ∧ b.y_max ≤ 1

instance (b : BBox) : Decidable b.valid := by
  unfold BBox.valid
  infer_instance

/-! ## Query engine (`scripts/search.py`) -/

/-- `search.py` line 35: `[entry for entry in data if entry["word"] == search_word]` —
the list of records whose `word` equals the query, by exact string equality. -/
def searchMatches (data : List WordRecord) (q : String) : List WordRecord :=
  data.filter (fun entry => entry.word == q)

/-- The state of the index file on disk, as seen by the query engine:
missing, present but not valid JSON, or a well-formed index. -/
inductive IndexFile where
  | missing
  | malformed
  | valid (records : List WordRecord)

/-- `search.py` lines 4-14: `json.load` wrapped so that a missing file or a
JSON parse failure prints an error and returns `None`. -/
def load_json_file : IndexFile → Option (List WordRecord)
  | .missing => none
  | .malformed => none
  | .valid rs => some rs

/-- The user-visible outcome of one run of `search_word`. -/
inductive SearchOutcome where
  | abortedNoDir
  | abortedLoad
  | found (count : Nat)
  | noMatches
  deriving DecidableEq, Repr

/-- A JSON value, as produced by Python's `json` module on this program's
data: integers and floats are kept apart because `json.dump` writes them
differently and `json.load` restores the same kind. -/
inductive Json where
  | null
  | bool (b : Bool)
  | int (n : ℤ)
  | num (q : ℚ)
  | str (s : String)
  | arr (elems : List Json)
  | obj (fields : List (String × Json))

/-- Serialization of one record, mirroring the key order of the dict built at
`preprocess.py` lines 151-161 and dumped by `json.dump`. -/
def encodeRecord (r : WordRecord) : Json :=
  .obj [("document", .str r.document),
        ("page", .int r.page),
        ("word", .str r.word),
        ("bounding_box", .arr [.num r.bounding_box.x_min, .num r.bounding_box.y_min,
                               .num r.bounding_box.x_max, .num r.bounding_box.y_max])]

/-- Serialization of the whole index (or of a result list): a JSON array of
record objects. -/
def encodeIndex (rs : List WordRecord) : Json :=
  .arr (rs.map encodeRecord)

/-- Key lookup in a JSON object's field list (first match, as in a Python
dict with unique keys). -/
def lookupField : List (String × Json) → String → Option Json
  | [], _ => none
  | (k', v) :: rest, k => if k' = k then some v else lookupField rest k

/-- Reading one record back out of a parsed JSON object, per the index
schema: `document` string, `page` integer, `word` string, `bounding_box`
array of four numbers. -/
def decodeRecord : Json → Option WordRecord
  | .obj fields =>
    match lookupField fields "document", lookupField fields "page",
          lookupField fields "word", lookupField fields "bounding_box" with
    | some (.str d), some (.int p), some (.str w),
      some (.arr [.num a, .num b, .num c, .num e]) =>
        some { document := d, page := p, word := w,
               bounding_box := { x_min := a, y_min := b, x_max := c, y_max := e } }
    | _, _, _, _ => none
  | _ => none

/-- Reading a whole index back from a parsed JSON array, element by element
in order. -/
def decodeIndex : Json → Option (List WordRecord)
  | .arr elems =>
    (elems.foldr (fun j acc =>
      match decodeRecord j, acc with
      | some r, some rs => some (r :: rs)
      | _, _ => none) (some []))
  | _ => none

/-- What one run of `search_word` (`search.py` lines 16-53) does, projected
onto its observable effects: the sequence of contents written to the output
JSON file, and the final message/outcome. `dirFound` is false when the
documents-directory retry loop ends with the user abandoning (empty input);
the index-file state and the query are the remaining inputs. -/
structure SearchRun where
  writes : List Json
  outcome : SearchOutcome

/-- `search.py` lines 16-53: validate the directory (abandoning aborts with
nothing written), load the index (a failed load aborts with nothing written),
filter for exact matches, then either write the matches and report a found
count, or report no matches and write an empty array. -/
def search_word (dirFound : Bool) (f : IndexFile) (q : String) : SearchRun :=
  if dirFound = false then { writes := [], outcome := .abortedNoDir }
  else
    match load_json_file f with
    | none => { writes := [], outcome := .abortedLoad }
    | some data =>
      let hits := searchMatches data q
      if hits.isEmpty then
        { writes := [Json.arr []], outcome := .noMatches }
      else
        { writes := [encodeIndex hits], outcome := .found hits.length }

/-! ## Indexing pipeline (`scripts/preprocess.py`) -/

/-- A normalized corner point of an OCR word geometry. -/
structure Point where
  x : ℚ
  y : ℚ
  deriving DecidableEq, Repr, Inhabited

/-- The geometry reported by the OCR collaborator for one word: at least two
corner points (top-left first, bottom-right second), possibly followed by
further corner points for rotated boxes. -/
structure Geometry where
  p0 : Point
  p1 : Point
  rest : List Point
  deriving DecidableEq, Repr, Inhabited

/-- One OCR-recognized word: its text and its geometry. -/
structure OcrWord where
  value : String
  geometry : Geometry
  deriving DecidableEq, Repr, Inhabited

/-- A line of the OCR result's block→line→word hierarchy. -/
structure OcrLine where
  words : List OcrWord
  deriving DecidableEq, Repr, Inhabited

/-- A block of the OCR result's block→line→word hierarchy. -/
structure OcrBlock where
  lines : List OcrLine
  deriving DecidableEq, Repr, Inhabited

/-- One page of an OCR result. -/
structure OcrPage where
  blocks : List OcrBlock
  deriving DecidableEq, Repr, Inhabited

/-- The page-ordered OCR result for one document. -/
structure OcrResult where
  pages : List OcrPage
  deriving DecidableEq, Repr, Inhabited

/-- `os.path.basename`: the part of the path after the last `/` (computed by
a left fold that restarts the accumulator at every separator). -/
def lastComponent (cs : List Char) : List Char :=
  cs.foldl (fun acc c => if c = '/' then [] else acc ++ [c]) []

/-- `os.path.basename` on strings. -/
def basename (p : String) : String :=
  ⟨lastComponent p.data⟩

/-- Python's `str.replace` for a nonempty pattern: scan left to right,
replacing every non-overlapping occurrence of `pat` by `rep`. The `fuel`
argument only drives the structural recursion; every step consumes at least
one input character, so fuel equal to the input length never runs out. -/
def replaceCharsFuel (pat rep : List Char) : Nat → List Char → List Char
  | _, [] => []
  | 0, cs => cs
  | fuel + 1, c :: cs =>
    if pat ≠ [] ∧ pat.isPrefixOf (c :: cs) then
      rep ++ replaceCharsFuel pat rep fuel (cs.drop (pat.length - 1))
    else
      c :: replaceCharsFuel pat rep fuel cs

/-- Python's `str.replace` on character lists (nonempty pattern). -/
def replaceChars (pat rep cs : List Char) : List Char :=
  replaceCharsFuel pat rep cs.length cs

/-- Python's `str.replace` on strings (nonempty pattern). -/
def strReplace (s pat rep : String) : String :=
  ⟨replaceChars pat.data rep.data s.data⟩

/-- The inputs to one pipeline run, with the external collaborators made
explicit: the folder's directly supported files (`*.pdf`, `*.jpg`, `*.jpeg`,
`*.png` in discovery order), its `*.docx` files, the temporary conversion
directory, whether LibreOffice conversion succeeds for each DOCX, and the
outcome of document loading + OCR for each file path. -/
structure PipelineEnv where
  directFiles : List String
  docxFiles : List String
  tempDir : String
  convert : String → Bool
  ocr : String → Except String OcrResult

/-- `preprocess.py` lines 22-42 (`preprocess_docx`): each DOCX whose
conversion succeeds yields a PDF in the temp directory named by replacing
`.docx` with `.pdf` in the source basename; failed conversions are logged
and skipped. -/
def preprocess_docx (env : PipelineEnv) : List String :=
  (env.docxFiles.filter env.convert).map
    (fun d => env.tempDir ++ "/" ++ strReplace (basename d) ".docx" ".pdf")

/-- `preprocess.py` lines 120-124: directly discovered supported files first,
then the converted PDFs. -/
def allFiles (env : PipelineEnv) : List String :=
  env.directFiles ++ preprocess_docx env

/-- `preprocess.py` lines 150-161: the record built for one OCR word of one
page — document basename, 1-based page number, word text, and a bounding box
taken from the first two geometry points only. -/
def recordOfWord (docName : String) (pageNum : ℤ) (w : OcrWord) : WordRecord :=
  { document := docName
    page := pageNum
    word := w.value
    bounding_box :=
      { x_min := w.geometry.p0.x
        y_min := w.geometry.p0.y
        x_max := w.geometry.p1.x
        y_max := w.geometry.p1.y } }

/-- `preprocess.py` lines 147-161: all records of one page, iterating
blocks, lines and words in OCR order. -/
def pageWords (docName : String) (pageNum : ℤ) (page : OcrPage) : List WordRecord :=
  (page.blocks.map (fun block =>
    (block.lines.map (fun line =>
      line.words.map (recordOfWord docName pageNum))).flatten)).flatten

/-- `preprocess.py` lines 145-162: the page loop, numbering pages from
`pageNum` upward (`page_idx + 1` in the source, so 1 on the first call). -/
def pagesRecords (docName : String) : ℤ → List OcrPage → List WordRecord
  | _, [] => []
  | pageNum, p :: ps => pageWords docName pageNum p ++ pagesRecords docName (pageNum + 1) ps

/-- All records of one document's OCR result, pages numbered from 1. -/
def ocrRecords (docName : String) (r : OcrResult) : List WordRecord :=
  pagesRecords docName 1 r.pages

/-- `preprocess.py` lines 127-172: the records one file contributes — none
when loading/OCR raises (the exception is caught and the file skipped),
otherwise the flattened records of every page, tagged with the file's
basename. -/
def docRecords (env : PipelineEnv) (fp : String) : List WordRecord :=
  match env.ocr fp with
  | .error _ => []
  | .ok r => ocrRecords (basename fp) r

/-- `preprocess.py` lines 112-172 (`preprocess_documents`): the full run's
record list — every file's contribution, in file order. -/
def preprocess_documents (env : PipelineEnv) : List WordRecord :=
  ((allFiles env).map (docRecords env)).flatten

/-- The DOCX files whose conversion failed; `preprocess_docx` logs an error
for each (`preprocess.py` lines 37-40). -/
def conversionErrors (env : PipelineEnv) : List String :=
  env.docxFiles.filter (fun d => !env.convert d)

/-- The files whose load/OCR raised; the handler at `preprocess.py` lines
170-172 logs an error for each. -/
def processingErrors (env : PipelineEnv) : List String :=
  (allFiles env).filter (fun fp =>
    match env.ocr fp with
    | .error _ => true
    | .ok _ => false)

/-- `preprocess.py` lines 177-180: after the document loop (whatever was
skipped), the run writes the index file exactly once, serializing the full
record list. -/
def pipelineIndexWrites (env : PipelineEnv) : List Json :=
  [encodeIndex (preprocess_documents env)]

/-- `preprocess.py` lines 64-75 (`draw_bounding_boxes`): for each word, the
rectangle drawn on the page image has corners obtained by scaling the
normalized box by the image's pixel width and height. -/
def draw_bounding_boxes (words : List WordRecord) (imgWidth imgHeight : ℚ) :
    List ((ℚ × ℚ) × (ℚ × ℚ)) :=
  words.map (fun w =>
    ((w.bounding_box.x_min * imgWidth, w.bounding_box.y_min * imgHeight),
     (w.bounding_box.x_max * imgWidth, w.bounding_box.y_max * imgHeight)))

/-! ## The OCR collaborator's contract (spec §6) -/

/-- A straight, normalized box geometry: the first point is the top-left
corner, the second the bottom-right, all coordinates in `[0,1]`. -/
def Geometry.straight (g : Geometry) : Prop :=
  0 ≤ g.p0.x ∧ g.p0.x ≤ g.p1.x ∧ g.p1.x ≤ 1 ∧
  0 ≤ g.p0.y ∧ g.p0.y ≤ g.p1.y ∧ g.p1.y ≤ 1

/-- The OCR collaborator's contract: every word of every successful OCR
result carries a straight, normalized geometry (the predictor is configured
with straight-box export). -/
def PipelineEnv.ocrStraight (env : PipelineEnv) : Prop :=
  ∀ fp r, env.ocr fp = Except.ok r →
    ∀ page ∈ r.pages, ∀ block ∈ page.blocks, ∀ line ∈ block.lines,
      ∀ w ∈ line.words, w.geometry.straight

/-! ## Concrete inputs used by the witnesses -/

/-- A sample OCR word spanning the whole page. -/
def sampleWord : OcrWord :=
  { value := "hello",
    geometry := { p0 := { x := 0, y := 0 }, p1 := { x := 1, y := 1 }, rest := [] } }

/-- A sample one-page OCR result containing only `sampleWord`. -/
def sampleOcr : OcrResult :=
  { pages := [{ blocks := [{ lines := [{ words := [sampleWord] }] }] }] }

/-- A run over a single direct PDF whose OCR succeeds. -/
def envDirect : PipelineEnv :=
  { directFiles := ["a.pdf"], docxFiles := [], tempDir := "/tmp/work",
    convert := fun _ => false, ocr := fun _ => Except.ok sampleOcr }

/-- A run over a single DOCX file that converts successfully and OCRs
successfully. -/
def envDocx : PipelineEnv :=
  { directFiles := [], docxFiles := ["/data/report.docx"], tempDir := "/tmp/work",
    convert := fun _ => true, ocr := fun _ => Except.ok sampleOcr }

/-- A run where the only DOCX fails conversion and the only direct file
fails OCR. -/
def envFail : PipelineEnv :=
  { directFiles := ["b.pdf"], docxFiles := ["a.docx"], tempDir := "/tmp/work",
    convert := fun _ => false, ocr := fun _ => Except.error "boom" }

/-! ## Round-trip helper lemmas -/

/-- Decoding inverts encoding on a single record. -/
theorem decodeRecord_encodeRecord (r : WordRecord) :
    decodeRecord (encodeRecord r) = some r := rfl

/-! ## Claim theorems -/

/-- Claim C1: for every loaded index and query, the query engine's result is
exactly the subsequence of index records whose `word` equals the query,
character for character: it is a sublist of the index (original order,
records unchanged), every returned record's word is the query, every index
occurrence of a matching record is kept (duplicates preserved, no
deduplication), no non-matching record appears, and in particular the query
"invoice" matches no record whose word is "Invoice". -/
theorem query_result_exact_subsequence (data : List WordRecord) (q : String) :
    List.Sublist (searchMatches data q) data ∧
    (∀ r ∈ searchMatches data q, r.word = q) ∧
    (∀ r : WordRecord, r.word = q →
      List.count r (searchMatches data q) = List.count r data) ∧
    (∀ r : WordRecord, r.word ≠ q → r ∉ searchMatches data q) ∧
    (∀ r : WordRecord, r.word = "Invoice" → r ∉ searchMatches data "invoice") := by
  refine ⟨List.filter_sublist _, ?_, ?_, ?_, ?_⟩
  · intro r hr
    have := (List.mem_filter.mp hr).2
    simpa using this
  · intro r hr
    exact List.count_filter (by simpa using hr)
  · intro r hr hmem
    have := (List.mem_filter.mp hmem).2
    simp at this
    exact hr this
  · intro r hr hmem
    have := (List.mem_filter.mp hmem).2
    simp [hr] at this

/-- Witness for C1 at a concrete index: a record whose word is "Invoice" is
not returned for the query "invoice". -/
theorem query_result_exact_subsequence_witness :
    ({ document := "a.pdf", page := 1, word := "Invoice",
       bounding_box := { x_min := 0, y_min := 0, x_max := 1, y_max := 1 } } : WordRecord) ∉
      searchMatches
        [{ document := "a.pdf", page := 1, word := "Invoice",
           bounding_box := { x_min := 0, y_min := 0, x_max := 1, y_max := 1 } }] "invoice" :=
  (query_result_exact_subsequence
    [{ document := "a.pdf", page := 1, word := "Invoice",
       bounding_box := { x_min := 0, y_min := 0, x_max := 1, y_max := 1 } }]
    "invoice").2.2.2.2 _ rfl

/-- Claim C2: writing an in-memory record sequence to the index file and
loading it back yields the identical ordered sequence. -/
theorem index_round_trip (rs : List WordRecord) :
    decodeIndex (encodeIndex rs) = some rs := by
  induction rs with
  | nil => rfl
  | cons r rs ih =>
    simp only [encodeIndex, decodeIndex, List.map_cons, List.foldr_cons] at *
    rw [ih, decodeRecord_encodeRecord]

/-- Claim C7: when the index file is missing or its content is not
parseable, loading yields `none`, and the query operation writes no output
file and aborts (it returns normally with the load-failure outcome rather
than crashing). -/
theorem load_failure_aborts_query (f : IndexFile) (q : String)
    (h : load_json_file f = none) :
    load_json_file IndexFile.missing = none ∧
    load_json_file IndexFile.malformed = none ∧
    (search_word true f q).writes = [] ∧
    (search_word true f q).outcome = SearchOutcome.abortedLoad := by
  refine ⟨rfl, rfl, ?_, ?_⟩ <;> simp [search_word, h]

/-- Witness for C7: querying against a missing index file writes nothing and
ends with the load-failure outcome. -/
theorem load_failure_aborts_query_witness :
    (search_word true IndexFile.missing "invoice").writes = [] ∧
    (search_word true IndexFile.missing "invoice").outcome = SearchOutcome.abortedLoad := by
  have h := load_failure_aborts_query IndexFile.missing "invoice" rfl
  exact ⟨h.2.2.1, h.2.2.2⟩

/-- Claim C8: a query with zero matches against a successfully loaded index
is not an error: the engine writes a valid output file containing an empty
array and ends with the distinct no-matches outcome, which differs from
every found-count outcome. -/
theorem empty_result_not_error (rs : List WordRecord) (q : String)
    (h : searchMatches rs q = []) :
    (search_word true (IndexFile.valid rs) q).writes = [Json.arr []] ∧
    (search_word true (IndexFile.valid rs) q).outcome = SearchOutcome.noMatches ∧
    (∀ n : Nat, SearchOutcome.noMatches ≠ SearchOutcome.found n) := by
  refine ⟨?_, ?_, fun n hn => by cases hn⟩ <;>
    simp [search_word, load_json_file, h]

/-- Witness for C8: querying an empty index for "absent" writes an empty
array and reports no matches. -/
theorem empty_result_not_error_witness :
    (search_word true (IndexFile.valid []) "absent").writes = [Json.arr []] ∧
    (search_word true (IndexFile.valid []) "absent").outcome = SearchOutcome.noMatches := by
  have h := empty_result_not_error [] "absent" rfl
  exact ⟨h.1, h.2.1⟩

/-- Claim C9: each rectangle drawn on a page image is the record's
normalized box scaled by the image's pixel width on the x coordinates and
pixel height on the y coordinates; in particular the normalized box
(0.1, 0.1, 0.5, 0.5) on a 1000×2000 image is drawn with pixel corners
(100, 200) and (500, 1000). -/
theorem annotation_scaling (words : List WordRecord) (w h : ℚ) :
    draw_bounding_boxes words w h =
      words.map (fun r =>
        ((r.bounding_box.x_min * w, r.bounding_box.y_min * h),
         (r.bounding_box.x_max * w, r.bounding_box.y_max * h))) ∧
    draw_bounding_boxes
      [{ document := "a.pdf", page := 1, word := "x",
         bounding_box := { x_min := 1/10, y_min := 1/10, x_max := 1/2, y_max := 1/2 } }]
      1000 2000 = [((100, 200), (500, 1000))] := by
  constructor
  · rfl
  · simp only [draw_bounding_boxes, List.map_cons, List.map_nil]
    norm_num

/-! ## Pipeline membership lemmas -/

/-- A record of one page's flattening comes from some word of some line of
some block of that page. -/
theorem mem_pageWords {docName : String} {pageNum : ℤ} {page : OcrPage}
    {rec : WordRecord} (h : rec ∈ pageWords docName pageNum page) :
    ∃ block ∈ page.blocks, ∃ line ∈ block.lines, ∃ w ∈ line.words,
      rec = recordOfWord docName pageNum w := by
  rw [pageWords, List.mem_flatten] at h
  obtain ⟨lb, hlb, h⟩ := h
  rw [List.mem_map] at hlb
  obtain ⟨block, hb, rfl⟩ := hlb
  rw [List.mem_flatten] at h
  obtain ⟨ll, hll, h⟩ := h
  rw [List.mem_map] at hll
  obtain ⟨line, hl, rfl⟩ := hll
  rw [List.mem_map] at h
  obtain ⟨w, hw, heq⟩ := h
  exact ⟨block, hb, line, hl, w, hw, heq.symm⟩

/-- A record of the page loop's output comes from some page of the list, at
a page number at least the starting one. -/
theorem mem_pagesRecords {docName : String} {rec : WordRecord} :
    ∀ (ps : List OcrPage) (pn : ℤ), rec ∈ pagesRecords docName pn ps →
      ∃ page ∈ ps, ∃ q : ℤ, pn ≤ q ∧ rec ∈ pageWords docName q page := by
  intro ps
  induction ps with
  | nil => intro pn h; simp [pagesRecords] at h
  | cons p ps ih =>
    intro pn h
    rw [pagesRecords, List.mem_append] at h
    rcases h with h | h
    · exact ⟨p, List.mem_cons_self p ps, pn, le_refl pn, h⟩
    · obtain ⟨page, hpage, q, hq, hw⟩ := ih (pn + 1) h
      exact ⟨page, List.mem_cons_of_mem p hpage, q, by omega, hw⟩

/-- Claim C3: assuming the OCR collaborator's straight-box contract, every
record the pipeline produces satisfies the data-model invariants: its page
number is at least 1 and its bounding box has coordinates in `[0,1]` with
min ≤ max on each axis. -/
theorem pipeline_records_valid (env : PipelineEnv) (hc : env.ocrStraight) :
    ∀ rec ∈ preprocess_documents env, 1 ≤ rec.page ∧ rec.bounding_box.valid := by
  intro rec hrec
  simp only [preprocess_documents, List.mem_flatten, List.mem_map] at hrec
  obtain ⟨_, ⟨fp, hfp, rfl⟩, hrec⟩ := hrec
  rcases hocr : env.ocr fp with e | r
  · rw [docRecords, hocr] at hrec
    simp at hrec
  · rw [docRecords, hocr] at hrec
    obtain ⟨page, hpage, q, hq, hw⟩ := mem_pagesRecords r.pages 1 hrec
    obtain ⟨block, hb, line, hl, w, hww, rfl⟩ := mem_pageWords hw
    have hs := hc fp r hocr page hpage block hb line hl w hww
    exact ⟨hq, hs⟩

/-- Witness for C3: the record produced by a concrete successful run has a
page number at least 1 and a valid bounding box. -/
theorem pipeline_records_valid_witness :
    1 ≤ (recordOfWord "a.pdf" 1 sampleWord).page ∧
    (recordOfWord "a.pdf" 1 sampleWord).bounding_box.valid := by
  refine pipeline_records_valid envDirect ?_ _ (by decide)
  intro fp r hr page hp block hb line hl w hw
  simp only [envDirect] at hr
  cases hr
  simp only [sampleOcr] at hp
  simp only [List.mem_singleton] at hp
  subst hp
  simp only [List.mem_singleton] at hb
  subst hb
  simp only [List.mem_singleton] at hl
  subst hl
  simp only [List.mem_singleton] at hw
  subst hw
  norm_num [sampleWord, Geometry.straight]

/-- Claim C4: the recorded bounding box of an OCR word is built from the
first (top-left) geometry point as `(x_min, y_min)` and the second
(bottom-right) point as `(x_max, y_max)` only; any further geometry points
are ignored (no rotation reconstruction, no recomputation). -/
theorem geometry_reduction (docName : String) (pageNum : ℤ) (w : OcrWord) :
    (recordOfWord docName pageNum w).bounding_box =
      { x_min := w.geometry.p0.x, y_min := w.geometry.p0.y,
        x_max := w.geometry.p1.x, y_max := w.geometry.p1.y } ∧
    (∀ extra : List Point,
      recordOfWord docName pageNum
        { w with geometry := { p0 := w.geometry.p0, p1 := w.geometry.p1, rest := extra } } =
      recordOfWord docName pageNum w) :=
  ⟨rfl, fun _ => rfl⟩

/-! ## Path helper lemmas -/

/-- Folding the basename step over separator-free input appends it to the
accumulator. -/
theorem foldl_sep_free (bs : List Char) :
    (∀ c ∈ bs, c ≠ '/') → ∀ acc : List Char,
      bs.foldl (fun acc c => if c = '/' then [] else acc ++ [c]) acc = acc ++ bs := by
  induction bs with
  | nil => intro _ acc; simp
  | cons b bs ih =>
    intro hb acc
    have hbne : b ≠ '/' := hb b (List.mem_cons_self b bs)
    simp only [List.foldl_cons, if_neg hbne]
    rw [ih (fun c hc => hb c (List.mem_cons_of_mem b hc)) (acc ++ [b])]
    simp

/-- The basename fold never leaves a separator in its output. -/
theorem lastComponent_sep_free : ∀ (cs acc : List Char),
    (∀ c ∈ acc, c ≠ '/') →
    ∀ c ∈ cs.foldl (fun acc c => if c = '/' then [] else acc ++ [c]) acc, c ≠ '/' := by
  intro cs
  induction cs with
  | nil => intro acc hacc; simpa using hacc
  | cons b bs ih =>
    intro acc hacc
    simp only [List.foldl_cons]
    by_cases hb : b = '/'
    · rw [if_pos hb]
      exact ih [] (by simp)
    · rw [if_neg hb]
      refine ih (acc ++ [b]) ?_
      intro c hc
      rcases List.mem_append.mp hc with h | h
      · exact hacc c h
      · simp only [List.mem_singleton] at h
        subst h
        exact hb

/-- A basename contains no path separator. -/
theorem basename_sep_free (p : String) : ∀ c ∈ (basename p).data, c ≠ '/' :=
  fun c hc => lastComponent_sep_free p.data [] (by simp) c hc

/-- The basename of `a ++ "/" ++ b` is the basename of `b`. -/
theorem basename_append (a b : String) : basename (a ++ "/" ++ b) = basename b := by
  have hdata : (a ++ "/" ++ b).data = (a.data ++ ['/']) ++ b.data := by
    rw [String.data_append, String.data_append]
  show (⟨lastComponent (a ++ "/" ++ b).data⟩ : String) = ⟨lastComponent b.data⟩
  rw [hdata]
  unfold lastComponent
  rw [List.foldl_append, List.foldl_append]
  simp

/-- The basename of a separator-free string is the string itself. -/
theorem basename_eq_self (s : String) (h : ∀ c ∈ s.data, c ≠ '/') :
    basename s = s := by
  show (⟨lastComponent s.data⟩ : String) = s
  unfold lastComponent
  rw [foldl_sep_free s.data h []]
  rfl

/-- Replacement introduces no separator when neither the input nor the
replacement contains one. -/
theorem replaceCharsFuel_sep_free (pat rep : List Char)
    (hrep : ∀ c ∈ rep, c ≠ '/') :
    ∀ (fuel : Nat) (cs : List Char), (∀ c ∈ cs, c ≠ '/') →
      ∀ c ∈ replaceCharsFuel pat rep fuel cs, c ≠ '/' := by
  intro fuel
  induction fuel with
  | zero =>
    intro cs hcs c hc
    cases cs with
    | nil => simp [replaceCharsFuel] at hc
    | cons a as => exact hcs c (by simpa [replaceCharsFuel] using hc)
  | succ fuel ih =>
    intro cs hcs c hc
    cases cs with
    | nil => simp [replaceCharsFuel] at hc
    | cons a as =>
      rw [replaceCharsFuel] at hc
      by_cases hp : pat ≠ [] ∧ pat.isPrefixOf (a :: as)
      · rw [if_pos hp] at hc
        rcases List.mem_append.mp hc with h | h
        · exact hrep c h
        · refine ih (as.drop (pat.length - 1)) ?_ c h
          intro d hd
          exact hcs d (List.mem_cons_of_mem a (List.drop_subset _ _ hd))
      · rw [if_neg hp] at hc
        rcases List.mem_cons.mp hc with h | h
        · subst h
          exact hcs _ (List.mem_cons_self _ as)
        · exact ih as (fun d hd => hcs d (List.mem_cons_of_mem a hd)) c h

/-- The converted name of a DOCX source contains no separator. -/
theorem converted_name_sep_free (d : String) :
    ∀ c ∈ (strReplace (basename d) ".docx" ".pdf").data, c ≠ '/' := by
  intro c hc
  exact replaceCharsFuel_sep_free ".docx".data ".pdf".data (by decide)
    (basename d).data.length (basename d).data (basename_sep_free d) c hc

/-- The `document` field of every record a file contributes is that file's
basename. -/
theorem docRecords_document (env : PipelineEnv) (fp : String) :
    ∀ rec ∈ docRecords env fp, rec.document = basename fp := by
  intro rec hrec
  rcases hocr : env.ocr fp with e | r
  · rw [docRecords, hocr] at hrec
    simp at hrec
  · rw [docRecords, hocr] at hrec
    obtain ⟨page, hpage, q, hq, hw⟩ := mem_pagesRecords r.pages 1 hrec
    obtain ⟨block, hb, line, hl, w, hww, rfl⟩ := mem_pageWords hw
    rfl

/-- Counterexample to C5: a run whose only input is the source file
`/data/report.docx` (conversion and OCR both succeed) produces records whose
`document` field is "report.pdf" — not "report.docx", the source basename
with its original extension. -/
theorem document_field_counterexample :
    (preprocess_documents envDocx).map (fun r => r.document) = ["report.pdf"] ∧
    basename "/data/report.docx" = "report.docx" ∧
    "report.pdf" ≠ "report.docx" := by
  refine ⟨rfl, rfl, by decide⟩

/-- Claim C5 (amended): records of a directly discovered PDF/JPEG/PNG input
carry the source file's basename, extension retained; records of a DOCX
input carry the converted file's basename instead — the source basename with
every ".docx" occurrence replaced by ".pdf". -/
theorem document_field_amended (env : PipelineEnv) :
    (∀ fp ∈ env.directFiles, ∀ rec ∈ docRecords env fp, rec.document = basename fp) ∧
    (∀ d ∈ env.docxFiles, env.convert d = true →
      (env.tempDir ++ "/" ++ strReplace (basename d) ".docx" ".pdf") ∈ allFiles env ∧
      ∀ rec ∈ docRecords env (env.tempDir ++ "/" ++ strReplace (basename d) ".docx" ".pdf"),
        rec.document = strReplace (basename d) ".docx" ".pdf") := by
  constructor
  · intro fp _ rec hrec
    exact docRecords_document env fp rec hrec
  · intro d hd hconv
    constructor
    · rw [allFiles]
      refine List.mem_append_right _ ?_
      rw [preprocess_docx]
      exact List.mem_map.mpr ⟨d, List.mem_filter.mpr ⟨hd, hconv⟩, rfl⟩
    · intro rec hrec
      have h1 := docRecords_document env _ rec hrec
      rwa [basename_append,
           basename_eq_self _ (converted_name_sep_free d)] at h1

/-- Witness for the amended C5 at a concrete run: the converted file of
`/data/report.docx` is among the processed files, and the record it yields
has `document` equal to the converted name. -/
theorem document_field_amended_witness :
    ("/tmp/work" ++ "/" ++ strReplace (basename "/data/report.docx") ".docx" ".pdf") ∈
      allFiles envDocx ∧
    (recordOfWord "report.pdf" 1 sampleWord).document =
      strReplace (basename "/data/report.docx") ".docx" ".pdf" := by
  have h := (document_field_amended envDocx).2 "/data/report.docx" (by decide) rfl
  exact ⟨h.1, h.2 _ (by decide)⟩

/-- Claim C6: failures are contained per document. A DOCX whose conversion
fails is recorded among the conversion errors and the run's records are
exactly those of the same run without it (it contributes zero records, the
others are unaffected); a file whose load/OCR invocation fails is recorded
among the processing errors, contributes zero records, and the run's output
is the concatenation of the other files' records. -/
theorem failure_containment (env : PipelineEnv) :
    (∀ d l₁ l₂, env.docxFiles = l₁ ++ d :: l₂ → env.convert d = false →
      d ∈ conversionErrors env ∧
      preprocess_documents env =
        preprocess_documents { env with docxFiles := l₁ ++ l₂ }) ∧
    (∀ fp e, env.ocr fp = Except.error e → fp ∈ allFiles env →
      fp ∈ processingErrors env ∧
      docRecords env fp = [] ∧
      preprocess_documents env =
        ((allFiles env).map
          (fun f => if f = fp then [] else docRecords env f)).flatten) := by
  constructor
  · intro d l₁ l₂ hsplit hconv
    constructor
    · refine List.mem_filter.mpr ⟨?_, by simp [hconv]⟩
      rw [hsplit]
      exact List.mem_append_right _ (List.mem_cons_self _ _)
    · have hdocx : preprocess_docx env =
          preprocess_docx { env with docxFiles := l₁ ++ l₂ } := by
        simp [preprocess_docx, hsplit, List.filter_append, List.filter_cons, hconv]
      simp only [preprocess_documents, allFiles]
      rw [hdocx]
      rfl
  · intro fp e hocr hmem
    refine ⟨?_, ?_, ?_⟩
    · exact List.mem_filter.mpr ⟨hmem, by simp [hocr]⟩
    · simp [docRecords, hocr]
    · rw [preprocess_documents]
      congr 1
      apply List.map_congr_left
      intro a ha
      by_cases hafp : a = fp
      · subst hafp
        simp [docRecords, hocr]
      · simp [hafp]

/-- Witness for C6 at a concrete run: the failing DOCX is a recorded
conversion error and removing it leaves the run's records unchanged; the
OCR-failing PDF is a recorded processing error contributing no records. -/
theorem failure_containment_witness :
    "a.docx" ∈ conversionErrors envFail ∧
    preprocess_documents envFail = preprocess_documents { envFail with docxFiles := [] } ∧
    "b.pdf" ∈ processingErrors envFail ∧
    docRecords envFail "b.pdf" = [] := by
  have h := failure_containment envFail
  have h1 := h.1 "a.docx" [] [] rfl rfl
  have h2 := h.2 "b.pdf" "boom" rfl (by decide)
  exact ⟨h1.1, h1.2, h2.1, h2.2.1⟩

/-- Claim C10: a run in which no file yields OCR output (no supported files
at all, or every file's conversion or OCR fails) still produces an empty
record list and writes the index file exactly once, as a valid empty JSON
array. -/
theorem empty_run_still_writes_index (env : PipelineEnv)
    (h : ∀ fp ∈ allFiles env, ∃ e, env.ocr fp = Except.error e) :
    preprocess_documents env = [] ∧
    pipelineIndexWrites env = [Json.arr []] ∧
    (pipelineIndexWrites env).length = 1 := by
  have hrec : preprocess_documents env = [] := by
    rw [preprocess_documents, List.flatten_eq_nil_iff]
    intro l hl
    rw [List.mem_map] at hl
    obtain ⟨fp, hfp, rfl⟩ := hl
    obtain ⟨e, he⟩ := h fp hfp
    simp [docRecords, he]
  refine ⟨hrec, ?_, rfl⟩
  rw [pipelineIndexWrites, hrec]
  rfl

/-- Witness for C10 at a concrete run where every file fails: the index is
still written, once, as an empty array. -/
theorem empty_run_still_writes_index_witness :
    preprocess_documents envFail = [] ∧
    pipelineIndexWrites envFail = [Json.arr []] := by
  have h := empty_run_still_writes_index envFail (fun fp _ => ⟨"boom", rfl⟩)
  exact ⟨h.1, h.2.1⟩

end WordSearch
